import Mathlib

/-!
# Verification of the Scaleway registry purge handler

Shallow embedding of `src/handlers/handler.py` (metarisc/scaleway-registry-purge).

Modelling conventions:
* Timezone-aware Python datetimes compare by the instant they denote, and
  `datetime.now(tz=...)` denotes the current instant whatever `tz` is, so
  timestamps are embedded as integers (seconds since the epoch) and the
  current time is an extra parameter `now`.
* A tag attribute whose evaluation raises (e.g. a `None` timestamp, on which
  `max`/`isoformat` raise) is embedded as an `Option` being `none`.
* Calls to the external Scaleway registry API are embedded as an oracle
  record `Registry` of `Except`-valued functions: `.error` models the call
  raising an exception, `.ok` models its return value.
* Python's `re` module is embedded by a regular-expression engine: an
  inductive language semantics stated over the match's context (so the
  anchors and word boundaries mean what they mean in Python), a
  context-aware Brzozowski-derivative matcher proved equivalent to it,
  and a parser.  The fragment covers literals, escapes, `.` (not
  matching newline), bracketed classes, perl classes, the anchors,
  groups, alternation and all bounded and unbounded quantifiers;
  syntactically bad patterns map to `PatErr.invalid` (`re.error`) and
  valid-but-unmodelled constructs to `PatErr.unsupported`, about which
  no theorem claims anything.
* JSON dictionaries appended to the result log are embedded as structures
  whose optional keys are `Option` fields (`none` = key absent).
-/

namespace RegistryPurge

/-- A registry tag as consumed by the handler.  `created_at`/`updated_at`
are `none` when evaluating the timestamp raises; `image_name` is `none`
when the attribute is absent (the code uses `getattr(tag, 'image_name',
'unknown')`). -/
structure Tag where
  id : String
  name : String
  created_at : Option Int
  updated_at : Option Int
  image_name : Option String
  deriving Repr, DecidableEq

/-- Retention window used by `is_tag_old`: `timedelta(days=90)` in seconds. -/
def retentionSeconds : Int := 90 * 86400

/-- Embedding of `is_tag_old` (handler.py:7-24): take the later of
`created_at` and `updated_at` and compare it with `now - 90 days`; any
exception while evaluating the timestamps yields `false`. -/
def is_tag_old (now : Int) (tag : Tag) : Bool :=
  match tag.created_at, tag.updated_at with
  | some c, some u => decide (max c u < now - retentionSeconds)
  | _, _ => false

/-- C1: the Age Predicate is true exactly on well-formed tags whose most
recent timestamp is more than 90 days before the current time, and is
false on tags whose timestamps raise. -/
theorem is_tag_old_correct (now : Int) (t : Tag) :
    (∀ c u, t.created_at = some c → t.updated_at = some u →
      (is_tag_old now t = true ↔ max c u < now - retentionSeconds)) ∧
    ((t.created_at = none ∨ t.updated_at = none) → is_tag_old now t = false) := by
  constructor
  · intro c u hc hu
    simp [is_tag_old, hc, hu]
  · intro h
    rcases h with h | h
    · simp [is_tag_old, h]
    · cases hc : t.created_at <;> simp [is_tag_old, hc, h]

/-- Witness for C1 at concrete inputs: a tag last touched well over 90
days before `now = 10^9` is old, and a tag with a raising `created_at`
is not. -/
theorem is_tag_old_correct_witness :
    is_tag_old 1000000000 ⟨"t1", "v1", some 0, some 1, none⟩ = true ∧
    is_tag_old 1000000000 ⟨"t2", "v2", none, some 999999999, none⟩ = false := by
  constructor
  · exact ((is_tag_old_correct 1000000000 ⟨"t1", "v1", some 0, some 1, none⟩).1
      0 1 rfl rfl).mpr (by norm_num [retentionSeconds])
  · exact (is_tag_old_correct 1000000000 ⟨"t2", "v2", none, some 999999999, none⟩).2
      (Or.inl rfl)

/-! ## A regular-expression engine embedding Python's `re` as used for
`TAG_NAME_PATTERN`.  `RMatches` is the language semantics, stated over the
match's full context (the text before and after the matched slice) so that
anchors and word boundaries mean what they mean in Python; the executable
matcher uses context-aware Brzozowski derivatives and is proved equivalent.
The modelled fragment: literal and escaped characters, `.` (not matching
newline), bracketed classes with ranges and negation, the perl classes
(backslash d/D/w/W/s/S, ASCII reading), the anchors `^`, `$` (which also
accepts a position just before a final newline), backslash A/Z/b/B, groups
`(..)` and `(?:..)`, alternation, the quantifiers `*`/`+`/`?`/`{m}`/
`{m,}`/`{m,n}` and their lazy variants (the lazy marker does not change
the matched language), and hex escapes.  Syntactically bad patterns are
rejected as `PatErr.invalid`, mirroring `re.error`; constructs that are
valid Python but outside the fragment (lookarounds, backreferences,
possessive quantifiers, group extensions, unicode/octal escapes) are
rejected as `PatErr.unsupported`, and no theorem makes a claim about
them. -/

/-- Perl character-class kinds: Python's backslash d, w and s, read over
ASCII (the Unicode reading agrees on ASCII subjects). -/
inductive PerlKind where
  | digit
  | word
  | space
  deriving Repr, DecidableEq

/-- One member of a bracketed character class: a literal character, a
codepoint range, or a perl class (negated for backslash D, W, S). -/
inductive ClsItem where
  | single (c : Char)
  | range (lo hi : Char)
  | perl (neg : Bool) (k : PerlKind)
  deriving Repr, DecidableEq

/-- ASCII reading of the perl classes. -/
def perlKindMatch : PerlKind → Char → Bool
  | .digit, c => c.isDigit
  | .word, c => c.isAlphanum || c = '_'
  | .space, c => c = ' ' || c = '\t' || c = '\n' || c = '\r' ||
      c = Char.ofNat 11 || c = Char.ofNat 12

/-- Does one class member accept the character? -/
def clsItemMatch (c : Char) : ClsItem → Bool
  | .single a => a = c
  | .range lo hi => decide (lo ≤ c) && decide (c ≤ hi)
  | .perl neg k => xor neg (perlKindMatch k c)

/-- Membership of a character in a bracketed class (`neg` for `[^..]`). -/
def clsMatch (neg : Bool) (items : List ClsItem) (c : Char) : Bool :=
  xor neg (items.any (clsItemMatch c))

/-- Word characters, for the word-boundary assertion. -/
def isWordChar (c : Char) : Bool := perlKindMatch .word c

/-- Is there a word boundary at the position between `pre` and `rest`? -/
def wordBoundary (pre rest : List Char) : Bool :=
  xor (match pre.getLast? with | none => false | some c => isWordChar c)
      (match rest.head? with | none => false | some c => isWordChar c)

/-- Expression trees of the modelled regular-expression fragment. -/
inductive Regex where
  | fail
  | eps
  | char (c : Char)
  | cls (neg : Bool) (items : List ClsItem)
  | dot
  | anchorBeg
  | anchorEnd
  | anchorEndZ
  | anchorWord (neg : Bool)
  | alt (r₁ r₂ : Regex)
  | cat (r₁ r₂ : Regex)
  | star (r : Regex)
  deriving Repr, DecidableEq

/-- Zero-width acceptance at the position between `pre` and `rest`. -/
def nullableC (pre rest : List Char) : Regex → Bool
  | .fail => false
  | .eps => true
  | .char _ => false
  | .cls _ _ => false
  | .dot => false
  | .anchorBeg => pre.isEmpty
  | .anchorEnd => decide (rest = [] ∨ rest = ['\n'])
  | .anchorEndZ => rest.isEmpty
  | .anchorWord neg => xor neg (wordBoundary pre rest)
  | .alt r₁ r₂ => nullableC pre rest r₁ || nullableC pre rest r₂
  | .cat r₁ r₂ => nullableC pre rest r₁ && nullableC pre rest r₂
  | .star _ => true

/-- Context-aware Brzozowski derivative: consume the character `c` at the
position between `pre` and `c :: rest`. -/
def derivC (pre : List Char) (c : Char) (rest : List Char) : Regex → Regex
  | .fail => .fail
  | .eps => .fail
  | .char a => if a = c then .eps else .fail
  | .cls neg items => if clsMatch neg items c then .eps else .fail
  | .dot => if c = '\n' then .fail else .eps
  | .anchorBeg => .fail
  | .anchorEnd => .fail
  | .anchorEndZ => .fail
  | .anchorWord _ => .fail
  | .alt r₁ r₂ => .alt (derivC pre c rest r₁) (derivC pre c rest r₂)
  | .cat r₁ r₂ =>
      if nullableC pre (c :: rest) r₁
      then .alt (.cat (derivC pre c rest r₁) r₂) (derivC pre c rest r₂)
      else .cat (derivC pre c rest r₁) r₂
  | .star r => .cat (derivC pre c rest r) (.star r)

/-- Does the expression match some initial segment of `rest`, the text
before `rest` being `pre`? -/
def matchesPre (pre : List Char) : List Char → Regex → Bool
  | [], r => nullableC pre [] r
  | c :: rest, r =>
      nullableC pre (c :: rest) r ||
      matchesPre (pre ++ [c]) rest (derivC pre c rest r)

/-- Embedding of `re.Pattern.search` as a Boolean, scanning every start
position (`pre` accumulates the text already skipped). -/
def searchC : List Char → List Char → Regex → Bool
  | pre, [], r => nullableC pre [] r
  | pre, c :: rest, r => matchesPre pre (c :: rest) r || searchC (pre ++ [c]) rest r

/-- Boolean search over a whole subject. -/
def search (r : Regex) (s : List Char) : Bool := searchC [] s r

/-- Outcome of a failed compilation: `invalid` embeds `re.compile`
raising `re.error`; `unsupported` marks a pattern that is valid Python
but uses a construct outside the modelled fragment — the embedding makes
no claim about such patterns. -/
inductive PatErr where
  | invalid (msg : String)
  | unsupported (msg : String)
  deriving Repr, DecidableEq

/-- Value of a hexadecimal digit. -/
def hexVal (c : Char) : Option Nat :=
  if c.isDigit then some (c.toNat - 48)
  else if 'a' ≤ c ∧ c ≤ 'f' then some (c.toNat - 87)
  else if 'A' ≤ c ∧ c ≤ 'F' then some (c.toNat - 55)
  else none

/-- Control-character escapes shared by all positions. -/
def ctrlEsc (d : Char) : Option Char :=
  if d = 'n' then some '\n'
  else if d = 't' then some '\t'
  else if d = 'r' then some '\r'
  else if d = 'f' then some (Char.ofNat 12)
  else if d = 'v' then some (Char.ofNat 11)
  else if d = 'a' then some (Char.ofNat 7)
  else none

/-- Perl-class escapes (backslash d/D/w/W/s/S). -/
def perlEsc (d : Char) : Option (Bool × PerlKind) :=
  if d = 'd' then some (false, .digit)
  else if d = 'D' then some (true, .digit)
  else if d = 'w' then some (false, .word)
  else if d = 'W' then some (true, .word)
  else if d = 's' then some (false, .space)
  else if d = 'S' then some (true, .space)
  else none

/-- Consume a run of decimal digits, accumulating their value. -/
def takeDigits (acc : Nat) : List Char → Nat × List Char
  | [] => (acc, [])
  | c :: rest =>
    if c.isDigit then takeDigits (acc * 10 + (c.toNat - 48)) rest
    else (acc, c :: rest)

/-- Parse a non-empty run of decimal digits. -/
def parseDigits : List Char → Option (Nat × List Char)
  | [] => none
  | c :: rest =>
    if c.isDigit then some (takeDigits (c.toNat - 48) rest) else none

/-- Parse the inside of a `{...}` repetition spec (the text after `{`):
`m}`, `m,}`, `m,n}` or `,n}`.  `none` means the brace does not open a
valid spec and is a literal, as in Python. -/
def parseRepSpec (s : List Char) : Option ((Nat × Option Nat) × List Char) :=
  match parseDigits s with
  | some (m, rest₁) =>
    match rest₁ with
    | '}' :: rest₂ => some ((m, some m), rest₂)
    | ',' :: rest₂ =>
      match parseDigits rest₂ with
      | some (n, rest₃) =>
        match rest₃ with
        | '}' :: rest₄ => some ((m, some n), rest₄)
        | _ => none
      | none =>
        match rest₂ with
        | '}' :: rest₃ => some ((m, none), rest₃)
        | _ => none
    | _ => none
  | none =>
    match s with
    | ',' :: rest₂ =>
      match parseDigits rest₂ with
      | some (n, rest₃) =>
        match rest₃ with
        | '}' :: rest₄ => some ((0, some n), rest₄)
        | _ => none
      | none => none
    | _ => none

/-- One quantifier occurrence. -/
inductive QuantSpec where
  | star
  | plus
  | opt
  | rep (m : Nat) (mx : Option Nat)
  deriving Repr, DecidableEq

/-- Recognise a quantifier at the head of the input. -/
def quantOf : List Char → Option (QuantSpec × List Char)
  | '*' :: rest => some (.star, rest)
  | '+' :: rest => some (.plus, rest)
  | '?' :: rest => some (.opt, rest)
  | '{' :: rest =>
    match parseRepSpec rest with
    | some ((m, mx), rest') => some (.rep m mx, rest')
    | none => none
  | _ => none

/-- `m`-fold concatenation of an expression. -/
def repExact (r : Regex) : Nat → Regex
  | 0 => .eps
  | n + 1 => .cat r (repExact r n)

/-- `n`-fold concatenation of an optional expression. -/
def repOpt (r : Regex) : Nat → Regex
  | 0 => .eps
  | n + 1 => .cat (.alt r .eps) (repOpt r n)

/-- Apply one quantifier: `{m,n}` desugars to `m` copies followed by
`n - m` optional copies, `{m,}` to `m` copies and a star. -/
def applyQuantSpec (r : Regex) : QuantSpec → Except PatErr Regex
  | .star => .ok (.star r)
  | .plus => .ok (.cat r (.star r))
  | .opt => .ok (.alt r .eps)
  | .rep m mx =>
    match mx with
    | none => .ok (.cat (repExact r m) (.star r))
    | some n =>
      if n < m then .error (.invalid "min repeat greater than max repeat")
      else .ok (.cat (repExact r m) (repOpt r (n - m)))

/-- One element of a bracketed class: an escape or a literal character. -/
def parseClsElem : List Char → Except PatErr (ClsItem × List Char)
  | [] => .error (.invalid "unterminated character set")
  | '\\' :: rest =>
    match rest with
    | [] => .error (.invalid "bad escape (end of pattern)")
    | d :: rest' =>
      match perlEsc d with
      | some (n, k) => .ok (.perl n k, rest')
      | none =>
        match ctrlEsc d with
        | some ch => .ok (.single ch, rest')
        | none =>
          if d = 'b' then .ok (.single (Char.ofNat 8), rest')
          else if d = 'x' then
            match rest' with
            | h₁ :: h₂ :: rest'' =>
              match hexVal h₁, hexVal h₂ with
              | some v₁, some v₂ =>
                .ok (.single (Char.ofNat (16 * v₁ + v₂)), rest'')
              | _, _ => .error (.invalid "incomplete escape")
            | _ => .error (.invalid "incomplete escape")
          else if d = 'u' || d = 'U' || d = 'N' then
            .error (.unsupported "unicode escape")
          else if d.isDigit then .error (.unsupported "octal escape")
          else if d.isAlpha then .error (.invalid "bad escape")
          else .ok (.single d, rest')
  | c :: rest => .ok (.single c, rest)

/-- The members of a bracketed class, up to the closing bracket.  A `-`
between two literal elements forms a range (reversed bounds are a
`re.error`); a trailing or leading `-` is literal. -/
def parseClsItems : Nat → List Char → Except PatErr (List ClsItem × List Char)
  | 0, _ => .error (.invalid "out of fuel")
  | fuel + 1, s =>
    match s with
    | [] => .error (.invalid "unterminated character set")
    | ']' :: rest => .ok ([], rest)
    | _ => do
      let (item, rest) ← parseClsElem s
      match item, rest with
      | .single a, '-' :: rest₂ =>
        match rest₂ with
        | ']' :: rest₃ => .ok ([.single a, .single '-'], rest₃)
        | _ => do
          let (item₂, rest₃) ← parseClsElem rest₂
          match item₂ with
          | .single b =>
            if b < a then .error (.invalid "bad character range")
            else do
              let (items, rest₄) ← parseClsItems fuel rest₃
              .ok (.range a b :: items, rest₄)
          | _ => .error (.invalid "bad character range")
      | _, _ => do
        let (items, rest') ← parseClsItems fuel rest
        .ok (item :: items, rest')

/-- A whole bracketed class (the input starts after `[`): an optional
leading `^` negates, and a `]` immediately after it is a literal member. -/
def parseCls (s : List Char) : Except PatErr (Regex × List Char) :=
  match s with
  | '^' :: ']' :: rest => do
    let (items, rest') ← parseClsItems (rest.length + 1) rest
    .ok (.cls true (.single ']' :: items), rest')
  | '^' :: rest => do
    let (items, rest') ← parseClsItems (rest.length + 1) rest
    .ok (.cls true items, rest')
  | ']' :: rest => do
    let (items, rest') ← parseClsItems (rest.length + 1) rest
    .ok (.cls false (.single ']' :: items), rest')
  | rest => do
    let (items, rest') ← parseClsItems (rest.length + 1) rest
    .ok (.cls false items, rest')

mutual
/-- Parse an alternation: concatenations separated by bars. -/
def parseAlt : Nat → List Char → Except PatErr (Regex × List Char)
  | 0, _ => .error (.invalid "out of fuel")
  | fuel + 1, s => do
    let (r, rest) ← parseCat fuel s
    match rest with
    | '|' :: rest' => do
        let (r', rest'') ← parseAlt fuel rest'
        pure (.alt r r', rest'')
    | _ => pure (r, rest)

/-- Parse a (possibly empty) concatenation of quantified atoms; stops at
`|`, at `)` or at the end of the pattern. -/
def parseCat : Nat → List Char → Except PatErr (Regex × List Char)
  | 0, _ => .error (.invalid "out of fuel")
  | fuel + 1, s =>
    match s with
    | [] => pure (.eps, [])
    | c :: _ =>
      if c = '|' || c = ')' then pure (.eps, s)
      else do
        let (r, rest) ← parseItem fuel s
        let (r', rest') ← parseCat fuel rest
        pure (.cat r r', rest')

/-- Parse one atom with an optional quantifier.  A lazy `?` after the
quantifier is accepted (it does not change the matched language); a
second quantifier is the `multiple repeat` error; a possessive `+` after
a quantifier is outside the fragment. -/
def parseItem : Nat → List Char → Except PatErr (Regex × List Char)
  | 0, _ => .error (.invalid "out of fuel")
  | fuel + 1, s => do
    let (r, rest) ← parseAtom fuel s
    match quantOf rest with
    | none => pure (r, rest)
    | some (q, rest₁) => do
      let r' ← applyQuantSpec r q
      match rest₁ with
      | '?' :: rest₂ =>
        if (quantOf rest₂).isSome then .error (.invalid "multiple repeat")
        else pure (r', rest₂)
      | '+' :: _ => .error (.unsupported "possessive quantifier")
      | _ =>
        if (quantOf rest₁).isSome then .error (.invalid "multiple repeat")
        else pure (r', rest₁)

/-- Parse one atom.  A leading quantifier (including a well-formed
`{m,n}`) is the `nothing to repeat` error; a brace that does not open a
well-formed spec is a literal, as in Python; `(?:` opens a plain group
while other `(?` extensions are outside the fragment. -/
def parseAtom : Nat → List Char → Except PatErr (Regex × List Char)
  | 0, _ => .error (.invalid "out of fuel")
  | fuel + 1, s =>
    match s with
    | [] => .error (.invalid "expected an atom")
    | c :: rest =>
      if c = '*' || c = '+' || c = '?' then
        .error (.invalid "nothing to repeat")
      else if c = '{' then
        match parseRepSpec rest with
        | some _ => .error (.invalid "nothing to repeat")
        | none => .ok (.char '{', rest)
      else if c = '(' then
        match rest with
        | '?' :: ':' :: rest₁ => do
          let (r, rest₂) ← parseAlt fuel rest₁
          match rest₂ with
          | ')' :: rest₃ => .ok (r, rest₃)
          | _ => .error (.invalid "missing ), unterminated subpattern")
        | '?' :: _ => .error (.unsupported "group extension")
        | _ => do
          let (r, rest₂) ← parseAlt fuel rest
          match rest₂ with
          | ')' :: rest₃ => .ok (r, rest₃)
          | _ => .error (.invalid "missing ), unterminated subpattern")
      else if c = ')' || c = '|' then .error (.invalid "expected an atom")
      else if c = '.' then .ok (.dot, rest)
      else if c = '^' then .ok (.anchorBeg, rest)
      else if c = '$' then .ok (.anchorEnd, rest)
      else if c = '[' then parseCls rest
      else if c = '\\' then
        match rest with
        | [] => .error (.invalid "bad escape (end of pattern)")
        | d :: rest' =>
          match perlEsc d with
          | some (n, k) => .ok (.cls false [.perl n k], rest')
          | none =>
            match ctrlEsc d with
            | some ch => .ok (.char ch, rest')
            | none =>
              if d = 'b' then .ok (.anchorWord false, rest')
              else if d = 'B' then .ok (.anchorWord true, rest')
              else if d = 'A' then .ok (.anchorBeg, rest')
              else if d = 'Z' then .ok (.anchorEndZ, rest')
              else if d = 'x' then
                match rest' with
                | h₁ :: h₂ :: rest'' =>
                  match hexVal h₁, hexVal h₂ with
                  | some v₁, some v₂ =>
                    .ok (.char (Char.ofNat (16 * v₁ + v₂)), rest'')
                  | _, _ => .error (.invalid "incomplete escape")
                | _ => .error (.invalid "incomplete escape")
              else if d = 'u' || d = 'U' || d = 'N' then
                .error (.unsupported "unicode escape")
              else if d.isDigit then
                .error (.unsupported "numbered reference or octal escape")
              else if d.isAlpha then .error (.invalid "bad escape")
              else .ok (.char d, rest')
      else .ok (.char c, rest)
end

/-- Embedding of `re.compile` on the modelled fragment: parse the whole
pattern, requiring all input to be consumed (a stray `)` is the
`unbalanced parenthesis` error). -/
def compile (p : String) : Except PatErr Regex :=
  match parseAlt (4 * (p.length + 1)) p.data with
  | .ok (r, []) => .ok r
  | .ok (_, _ :: _) => .error (.invalid "unbalanced parenthesis")
  | .error e => .error e

/-- Embedding of `should_delete_tag_by_name` (handler.py:26-40):
`none` models `name_pattern=None`; `some ""` is also falsy in Python, so
both short-circuit to `false`.  A pattern rejected by compilation yields
`false`: for `PatErr.invalid` this is the source's `re.error` branch; for
`PatErr.unsupported` (a valid pattern outside the modelled fragment) the
returned value is a modelling default about which no theorem makes a
claim.  Otherwise the result is `re.search` on the tag's name, coerced to
`bool`. -/
def should_delete_tag_by_name (tag : Tag) (name_pattern : Option String) : Bool :=
  match name_pattern with
  | none => false
  | some p =>
    if p = "" then false
    else
      match compile p with
      | .ok r => search r tag.name.data
      | .error _ => false

/-- A registry image; only its identifier is consumed by the handler. -/
structure Image where
  id : String
  deriving Repr, DecidableEq

/-- A registry namespace as consumed by the sweep stage. -/
structure Namespace where
  id : String
  name : String
  deriving Repr, DecidableEq

/-- Configuration derived from the environment (handler.py:44-51); also the
shape echoed back as `criteria_used` in both summaries. -/
structure Config where
  delete_old_tags : Bool
  tag_name_pattern : Option String
  delete_unused_namespaces : Bool
  target_namespace_id : Option String
  deriving Repr, DecidableEq

/-- Python truthiness of `NAMESPACE_ID`: both `None` and the empty string
are falsy, so the effective target is `none` in either case. -/
def effTarget (cfg : Config) : Option String :=
  match cfg.target_namespace_id with
  | some nsid => if nsid = "" then none else some nsid
  | none => none

/-- Python truthiness of an optional string (`TAG_NAME_PATTERN` guard). -/
def isTruthy : Option String → Bool
  | none => false
  | some s => decide (s ≠ "")

/-- Oracle for the external Scaleway registry API: each field embeds one
API call, `.error` modelling the call raising.  `list_images` takes the
optional `namespace_id` filter (used both by the top-level enumeration and
by the per-namespace emptiness check of the sweep stage). -/
structure Registry where
  list_images : Option String → Except String (List Image)
  list_tags : String → Except String (List Tag)
  delete_tag : String → Except String Unit
  get_namespace : String → Except String Namespace
  list_namespaces : Except String (List Namespace)
  delete_namespace : String → Except String Unit

/-- Status value of a result record. -/
inductive Status where
  | deleted
  | error
  deriving Repr, DecidableEq

/-- One per-tag dictionary appended to `msg` (handler.py:144-163).
Optional keys are `Option` fields, `none` meaning the key is absent. -/
structure TagRecord where
  tag_id : String
  tag_name : String
  image_name : Option String
  status : Status
  deletion_reasons : List String
  created_at : Option Int
  updated_at : Option Int
  error : Option String
  deriving Repr, DecidableEq

/-- One per-namespace dictionary appended to `msg` (handler.py:206-229).
The constant keys `type: "namespace"` and `reason: "empty_namespace"` are
represented by the record being wrapped in `Record.ns`. -/
structure NamespaceRecord where
  namespace_id : String
  namespace_name : String
  status : Status
  error : Option String
  deriving Repr, DecidableEq

/-- An entry of the `msg` result log. -/
inductive Record where
  | tag (r : TagRecord)
  | ns (r : NamespaceRecord)
  deriving Repr, DecidableEq

/-- The success-path summary (handler.py:259-272). -/
structure Summary where
  total_images_analyzed : Nat
  total_tags_found : Nat
  successfully_deleted : Nat
  errors : Nat
  namespaces_deleted : Nat
  namespace_errors : Nat
  criteria_used : Config
  deriving Repr, DecidableEq

/-- The summary of the 500-shaped error body (handler.py:263-274): only
four counters appear in that literal (no namespace counters). -/
structure ErrSummary where
  total_images_analyzed : Nat
  total_tags_found : Nat
  successfully_deleted : Nat
  errors : Nat
  criteria_used : Config
  deriving Repr, DecidableEq

/-- The `body` of the returned value. -/
inductive Body where
  | success (message : List Record) (summary : Summary)
  | failure (error : String) (summary : ErrSummary)
  deriving Repr, DecidableEq

/-- The value returned by `handle`. -/
structure HandleResult where
  body : Body
  statusCode : Nat
  deriving Repr, DecidableEq

/-- Trace of the mutating registry calls issued during a run. -/
structure Trace where
  tagDeleteCalls : List String
  nsDeleteCalls : List String
  deriving Repr, DecidableEq

/-- Reasons gathered for one tag (handler.py:89-101): each enabled
predicate appends its reason code; `should_delete` is set exactly when
some reason was appended. -/
def deletion_reason (cfg : Config) (now : Int) (tag : Tag) : List String :=
  (if cfg.delete_old_tags && is_tag_old now tag then ["old"] else []) ++
  (if isTruthy cfg.tag_name_pattern &&
      should_delete_tag_by_name tag cfg.tag_name_pattern then ["name_match"]
   else [])

/-- Candidates contributed by one image's tag list (handler.py:88-105):
a tag is kept as a candidate exactly when its reason list is non-empty. -/
def classifyTags (cfg : Config) (now : Int) (tags : List Tag) :
    List (Tag × List String) :=
  tags.filterMap fun t =>
    if (deletion_reason cfg now t).isEmpty then none
    else some (t, deletion_reason cfg now t)

/-- Embedding of the classification pass over all images
(handler.py:79-109): an image whose tag listing raises is skipped
(`continue`) and contributes no candidates. -/
def tags_to_delete (cfg : Config) (now : Int) (reg : Registry) :
    List Image → List (Tag × List String)
  | [] => []
  | image :: images =>
    (match reg.list_tags image.id with
     | .error _ => []
     | .ok tags => classifyTags cfg now tags) ++
    tags_to_delete cfg now reg images

/-- All tags the classification pass iterates over: the concatenation of
the successful tag listings, in image order. -/
def allListedTags (reg : Registry) : List Image → List Tag
  | [] => []
  | image :: images =>
    (match reg.list_tags image.id with
     | .error _ => []
     | .ok tags => tags) ++
    allListedTags reg images

/-- Embedding of one candidate's deletion (handler.py:136-163): the
appended record, paired with whether `deleted_count` was incremented.
When the delete succeeds but a timestamp is `None`, the `isoformat()`
call inside the success dictionary raises and the `except` branch appends
an error record instead (and the count is not incremented). -/
def processCandidate (reg : Registry) (tag : Tag) (reasons : List String) :
    TagRecord × Bool :=
  match reg.delete_tag tag.id with
  | .ok _ =>
    match tag.created_at, tag.updated_at with
    | some c, some u =>
      (⟨tag.id, tag.name, some (tag.image_name.getD "unknown"), .deleted,
        reasons, some c, some u, none⟩, true)
    | _, _ =>
      (⟨tag.id, tag.name, none, .error, reasons, none, none,
        some "AttributeError: isoformat"⟩, false)
  | .error e =>
    (⟨tag.id, tag.name, none, .error, reasons, none, none, some e⟩, false)

/-- Outcome of the sweep stage: appended records, `deleted_namespaces_count`,
`namespace_errors`, and the `delete_namespace` calls issued. -/
structure SweepOutcome where
  records : List Record
  deleted : Nat
  errors : Nat
  calls : List String
  deriving Repr, DecidableEq

/-- Embedding of the per-namespace body of the sweep loop
(handler.py:191-231): a raising image listing counts one error and moves
on; an empty namespace gets a `delete_namespace` call whose success or
failure is recorded; a non-empty namespace is left untouched. -/
def sweepOne (reg : Registry) (ns : Namespace) : SweepOutcome :=
  match reg.list_images (some ns.id) with
  | .error _ => ⟨[], 0, 1, []⟩
  | .ok imgs =>
    if imgs.length = 0 then
      match reg.delete_namespace ns.id with
      | .ok _ => ⟨[.ns ⟨ns.id, ns.name, .deleted, none⟩], 1, 0, [ns.id]⟩
      | .error e => ⟨[.ns ⟨ns.id, ns.name, .error, some e⟩], 0, 1, [ns.id]⟩
    else ⟨[], 0, 0, []⟩

/-- The sweep loop over the candidate namespaces. -/
def sweepAll (reg : Registry) : List Namespace → SweepOutcome
  | [] => ⟨[], 0, 0, []⟩
  | ns :: nss =>
    ⟨(sweepOne reg ns).records ++ (sweepAll reg nss).records,
     (sweepOne reg ns).deleted + (sweepAll reg nss).deleted,
     (sweepOne reg ns).errors + (sweepAll reg nss).errors,
     (sweepOne reg ns).calls ++ (sweepAll reg nss).calls⟩

/-- The candidate namespace set of the sweep stage (handler.py:171-189):
the targeted namespace when `NAMESPACE_ID` is truthy (empty on a raising
fetch), otherwise all namespaces (empty on a raising listing). -/
def sweepCandidates (cfg : Config) (reg : Registry) : List Namespace :=
  match effTarget cfg with
  | some nsid =>
    match reg.get_namespace nsid with
    | .ok ns => [ns]
    | .error _ => []
  | none =>
    match reg.list_namespaces with
    | .ok nss => nss
    | .error _ => []

/-- Embedding of the whole optional sweep stage (handler.py:167-235):
disabled, it does nothing; a raising targeted `get_namespace` degrades to
an empty candidate set without touching the error counter (only the inner
`except` fires); a raising `list_namespaces_all` escapes to the stage's
outer `except` and counts one namespace error. -/
def sweepStage (cfg : Config) (reg : Registry) : SweepOutcome :=
  if cfg.delete_unused_namespaces then
    match effTarget cfg with
    | some nsid =>
      match reg.get_namespace nsid with
      | .ok ns => sweepAll reg [ns]
      | .error _ => ⟨[], 0, 0, []⟩
    | none =>
      match reg.list_namespaces with
      | .ok nss => sweepAll reg nss
      | .error _ => ⟨[], 0, 1, []⟩
  else ⟨[], 0, 0, []⟩

/-- Embedding of `handle` (handler.py:42-276), paired with the trace of
delete calls.  A raising top-level image listing is the only exception
reaching the outer `except` (every other raise is caught by an inner
handler), and produces the 500-shaped result with the four-counter error
summary, whose `errors` field is the literal `1`. -/
def handle (cfg : Config) (now : Int) (reg : Registry) :
    HandleResult × Trace :=
  match reg.list_images (effTarget cfg) with
  | .error e =>
    (⟨.failure ("Erreur générale du script: " ++ e) ⟨0, 0, 0, 1, cfg⟩, 500⟩,
     ⟨[], []⟩)
  | .ok images =>
    let candidates := tags_to_delete cfg now reg images
    let processed := candidates.map fun p => processCandidate reg p.1 p.2
    let deleted_count := (processed.filter fun p => p.2).length
    let sweep := sweepStage cfg reg
    let msg := (processed.map fun p => Record.tag p.1) ++ sweep.records
    (⟨.success msg
        ⟨images.length, candidates.length, deleted_count,
         candidates.length - deleted_count,
         (if cfg.delete_unused_namespaces then sweep.deleted else 0),
         (if cfg.delete_unused_namespaces then sweep.errors else 0),
         cfg⟩,
      200⟩,
     ⟨candidates.map fun p => p.1.id, sweep.calls⟩)

/-! ## Structural facts about the classification pass -/

/-- Candidate membership: `(t, rs)` is a candidate of a tag list exactly
when `t` is in the list with a non-empty computed reason list `rs`. -/
theorem mem_classifyTags (cfg : Config) (now : Int) (l : List Tag)
    (p : Tag × List String) :
    p ∈ classifyTags cfg now l ↔
      p.1 ∈ l ∧ p.2 = deletion_reason cfg now p.1 ∧
        deletion_reason cfg now p.1 ≠ [] := by
  obtain ⟨a, rs⟩ := p
  simp only [classifyTags, List.mem_filterMap]
  constructor
  · rintro ⟨t, ht, hf⟩
    by_cases h : (deletion_reason cfg now t).isEmpty
    · rw [if_pos h] at hf
      exact Option.noConfusion hf
    · rw [if_neg h] at hf
      injection hf with hf
      injection hf with hfa hfb
      subst hfa; subst hfb
      exact ⟨ht, rfl, by simpa using h⟩
  · rintro ⟨h₁, h₂, h₃⟩
    refine ⟨a, h₁, ?_⟩
    rw [if_neg (by simpa using h₃)]
    rw [← h₂]

/-- The tags underlying the candidate list form a sublist of the tag
list that was classified. -/
theorem classifyTags_fst_sublist (cfg : Config) (now : Int) :
    ∀ l : List Tag, ((classifyTags cfg now l).map Prod.fst).Sublist l := by
  intro l
  induction l with
  | nil => simp [classifyTags]
  | cons t l ih =>
    by_cases h : (deletion_reason cfg now t).isEmpty
    · simp only [classifyTags, List.filterMap_cons, if_pos h]
      exact List.Sublist.cons t ih
    · simp only [classifyTags, List.filterMap_cons, if_neg h, List.map_cons]
      exact List.Sublist.cons₂ t ih

/-- The classification pass over all images equals the classification of
the concatenation of the successful tag listings. -/
theorem tags_to_delete_eq_classify (cfg : Config) (now : Int)
    (reg : Registry) : ∀ images : List Image,
    tags_to_delete cfg now reg images =
      classifyTags cfg now (allListedTags reg images) := by
  intro images
  induction images with
  | nil => rfl
  | cons image images ih =>
    simp only [tags_to_delete, allListedTags, classifyTags,
      List.filterMap_append]
    rw [← classifyTags, ← classifyTags, ih]
    cases reg.list_tags image.id <;> rfl

instance {ε α : Type} [DecidableEq ε] [DecidableEq α] :
    DecidableEq (Except ε α) := fun x y =>
  match x, y with
  | .ok a, .ok b =>
    if h : a = b then .isTrue (by rw [h]) else .isFalse (by simp [h])
  | .error a, .error b =>
    if h : a = b then .isTrue (by rw [h]) else .isFalse (by simp [h])
  | .ok _, .error _ => .isFalse (by simp)
  | .error _, .ok _ => .isFalse (by simp)

/-- C3: when the listed tags have pairwise-distinct ids, the candidate
list has pairwise-distinct tag ids (each tag appears at most once), every
candidate carries exactly the union of the triggered predicate reasons,
and a tag triggering both predicates appears exactly once, as a single
record with reasons `["old", "name_match"]`. -/
theorem candidate_list_unique_union (cfg : Config) (now : Int)
    (reg : Registry) (images : List Image)
    (hids : ((allListedTags reg images).map Tag.id).Nodup) :
    ((tags_to_delete cfg now reg images).map fun p => p.1.id).Nodup ∧
    (∀ p ∈ tags_to_delete cfg now reg images,
      p.2 = (if cfg.delete_old_tags && is_tag_old now p.1 then ["old"]
             else []) ++
            (if isTruthy cfg.tag_name_pattern &&
                should_delete_tag_by_name p.1 cfg.tag_name_pattern
             then ["name_match"] else []) ∧ p.2 ≠ []) ∧
    (∀ t ∈ allListedTags reg images,
      (cfg.delete_old_tags && is_tag_old now t) = true →
      (isTruthy cfg.tag_name_pattern &&
        should_delete_tag_by_name t cfg.tag_name_pattern) = true →
      (t, ["old", "name_match"]) ∈ tags_to_delete cfg now reg images ∧
      ((tags_to_delete cfg now reg images).map fun p => p.1.id).count t.id
        = 1) := by
  rw [tags_to_delete_eq_classify]
  have hsub : (((classifyTags cfg now (allListedTags reg images)).map
      Prod.fst).map Tag.id).Sublist
      ((allListedTags reg images).map Tag.id) :=
    (classifyTags_fst_sublist cfg now (allListedTags reg images)).map Tag.id
  have hnd : ((classifyTags cfg now (allListedTags reg images)).map
      fun p => p.1.id).Nodup := by
    have := hids.sublist hsub
    simpa [List.map_map, Function.comp] using this
  refine ⟨hnd, ?_, ?_⟩
  · intro p hp
    obtain ⟨_, h₂, h₃⟩ :=
      (mem_classifyTags cfg now (allListedTags reg images) p).mp hp
    exact ⟨by rw [h₂]; rfl, by rw [h₂]; exact h₃⟩
  · intro t ht h₁ h₂
    have hdr : deletion_reason cfg now t = ["old", "name_match"] := by
      simp [deletion_reason, h₁, h₂]
    have hmem : (t, ["old", "name_match"]) ∈
        classifyTags cfg now (allListedTags reg images) := by
      refine (mem_classifyTags cfg now (allListedTags reg images)
        (t, ["old", "name_match"])).mpr ⟨ht, hdr.symm, by rw [hdr]; simp⟩
    refine ⟨hmem, ?_⟩
    refine List.count_eq_one_of_mem hnd ?_
    exact List.mem_map.mpr ⟨(t, ["old", "name_match"]), hmem, rfl⟩

/-! ## Concrete fixtures used by witnesses and counterexamples -/

/-- A tag old enough to be purged at `nowFx`. -/
def tagOld : Tag := ⟨"t-old", "build-a", some 0, some 0, some "img"⟩

/-- A recently updated tag whose name avoids the fixture pattern. -/
def tagFresh : Tag := ⟨"t-new", "keep", some 9999999, some 9999999, none⟩

/-- Fixture current time: `tagOld` is 10^7 s old, `tagFresh` 1 s old. -/
def nowFx : Int := 10000000

/-- Age-based purge only (defaults: `DELETE_OLD_TAGS` unset = true). -/
def cfgBasic : Config := ⟨true, none, false, none⟩

/-- Age- and name-based purge, pattern `"a"`. -/
def cfgBoth : Config := ⟨true, some "a", false, none⟩

/-- One image with one old and one fresh tag; deletes succeed. -/
def regFx : Registry where
  list_images := fun _ => .ok [⟨"i1"⟩]
  list_tags := fun _ => .ok [tagOld, tagFresh]
  delete_tag := fun _ => .ok ()
  get_namespace := fun _ => .error "not found"
  list_namespaces := .error "not found"
  delete_namespace := fun _ => .error "not found"

theorem candidate_list_unique_union_witness :
    (tagOld, ["old", "name_match"]) ∈
      tags_to_delete cfgBoth nowFx regFx [⟨"i1"⟩] ∧
    ((tags_to_delete cfgBoth nowFx regFx [⟨"i1"⟩]).map
      fun p => p.1.id).count tagOld.id = 1 :=
  (candidate_list_unique_union cfgBoth nowFx regFx [⟨"i1"⟩] (by decide)).2.2
    tagOld (by decide) (by decide) (by decide)

/-- Registry on which every call raises. -/
def regFail : Registry where
  list_images := fun _ => .error "boom"
  list_tags := fun _ => .error "boom"
  delete_tag := fun _ => .error "boom"
  get_namespace := fun _ => .error "boom"
  list_namespaces := .error "boom"
  delete_namespace := fun _ => .error "boom"

/-- C4 counterexample: on a raising top-level image listing the 500-shaped
result's summary does not have all counters zero — its `errors` counter is
the literal 1 (handler.py:266), refuting the claimed all-zero summary. -/
theorem handle_failure_errors_not_zero :
    (handle cfgBasic 0 regFail).1.statusCode = 500 ∧
    ∃ e s, (handle cfgBasic 0 regFail).1.body = Body.failure e s ∧
      s.errors = 1 ∧
      ¬ (s.total_images_analyzed = 0 ∧ s.total_tags_found = 0 ∧
         s.successfully_deleted = 0 ∧ s.errors = 0) := by
  refine ⟨rfl, "Erreur générale du script: " ++ "boom",
    ⟨0, 0, 0, 1, cfgBasic⟩, rfl, rfl, ?_⟩
  rintro ⟨-, -, -, h⟩
  exact absurd h (by decide)

/-- C4 amended: a raising top-level image listing yields statusCode 500
with an error string and the four-counter error summary in which every
counter is zero except `errors`, which equals 1. -/
theorem handle_failure_shape (cfg : Config) (now : Int) (reg : Registry)
    (e : String) (h : reg.list_images (effTarget cfg) = .error e) :
    (handle cfg now reg).1 =
      ⟨.failure ("Erreur générale du script: " ++ e) ⟨0, 0, 0, 1, cfg⟩,
       500⟩ := by
  simp [handle, h]

theorem handle_failure_shape_witness :
    (handle cfgBasic 0 regFail).1 =
      ⟨.failure ("Erreur générale du script: " ++ "boom")
        ⟨0, 0, 0, 1, cfgBasic⟩, 500⟩ :=
  handle_failure_shape cfgBasic 0 regFail "boom" rfl

/-- C5: on the success path a `delete_tag` call is issued for every
candidate (so one candidate's failure does not prevent the others), each
failing candidate is recorded as its own error record in the message log,
and the summary satisfies `errors = total_tags_found - successfully_deleted`. -/
theorem delete_executor_correct (cfg : Config) (now : Int) (reg : Registry)
    (images : List Image)
    (h : reg.list_images (effTarget cfg) = .ok images) :
    ∃ msgs s, (handle cfg now reg).1.body = .success msgs s ∧
      (handle cfg now reg).2.tagDeleteCalls =
        (tags_to_delete cfg now reg images).map (fun p => p.1.id) ∧
      s.total_tags_found = (tags_to_delete cfg now reg images).length ∧
      s.errors = s.total_tags_found - s.successfully_deleted ∧
      ∀ p ∈ tags_to_delete cfg now reg images, ∀ e,
        reg.delete_tag p.1.id = .error e →
        Record.tag ⟨p.1.id, p.1.name, none, .error, p.2, none, none, some e⟩
          ∈ msgs := by
  simp only [handle, h]
  refine ⟨_, _, rfl, trivial, rfl, rfl, ?_⟩
  intro p hp e he
  apply List.mem_append_left
  rw [List.map_map]
  refine List.mem_map.mpr ⟨p, hp, ?_⟩
  simp [Function.comp, processCandidate, he]

/-- Like `regFx` but every tag delete is denied. -/
def regDelFail : Registry where
  list_images := fun _ => .ok [⟨"i1"⟩]
  list_tags := fun _ => .ok [tagOld]
  delete_tag := fun _ => .error "denied"
  get_namespace := fun _ => .error "not found"
  list_namespaces := .error "not found"
  delete_namespace := fun _ => .error "not found"

theorem delete_executor_correct_witness :
    ∃ msgs s, (handle cfgBasic nowFx regDelFail).1.body = .success msgs s ∧
      Record.tag ⟨tagOld.id, tagOld.name, none, .error, ["old"], none, none,
        some "denied"⟩ ∈ msgs := by
  obtain ⟨msgs, s, hb, -, -, -, hrec⟩ :=
    delete_executor_correct cfgBasic nowFx regDelFail [⟨"i1"⟩] rfl
  exact ⟨msgs, s, hb, hrec (tagOld, ["old"]) (by decide) "denied" rfl⟩

/-- The `delete_namespace` call happens for a namespace exactly when its image
listing returned the empty list. -/
theorem sweepOne_calls (reg : Registry) (ns : Namespace) (nid : String) :
    nid ∈ (sweepOne reg ns).calls ↔
      nid = ns.id ∧ reg.list_images (some ns.id) = .ok [] := by
  cases h : reg.list_images (some ns.id) with
  | error e => simp [sweepOne, h]
  | ok imgs =>
    cases imgs with
    | nil =>
      cases hd : reg.delete_namespace ns.id <;> simp [sweepOne, h, hd]
    | cons i is => simp [sweepOne, h]

theorem sweepAll_calls_mem (reg : Registry) (nid : String) :
    ∀ nss : List Namespace, nid ∈ (sweepAll reg nss).calls ↔
      ∃ ns ∈ nss, nid = ns.id ∧ reg.list_images (some ns.id) = .ok [] := by
  intro nss
  induction nss with
  | nil => simp [sweepAll]
  | cons ns nss ih =>
    simp only [sweepAll, List.mem_append, ih, sweepOne_calls reg ns nid,
      List.mem_cons]
    constructor
    · rintro (h | ⟨ns', h₁, h₂⟩)
      · exact ⟨ns, Or.inl rfl, h⟩
      · exact ⟨ns', Or.inr h₁, h₂⟩
    · rintro ⟨ns', h₁ | h₁, h₂⟩
      · subst h₁; exact Or.inl h₂
      · exact Or.inr ⟨ns', h₁, h₂⟩

theorem sweepStage_calls (cfg : Config) (reg : Registry) (nid : String) :
    nid ∈ (sweepStage cfg reg).calls ↔
      cfg.delete_unused_namespaces = true ∧
      ∃ ns ∈ sweepCandidates cfg reg, nid = ns.id ∧
        reg.list_images (some ns.id) = .ok [] := by
  cases hen : cfg.delete_unused_namespaces with
  | false => simp [sweepStage, hen]
  | true =>
    cases ht : effTarget cfg with
    | some nsid =>
      cases hg : reg.get_namespace nsid with
      | ok ns =>
        simp [sweepStage, hen, ht, hg, sweepCandidates, sweepAll_calls_mem]
      | error e =>
        simp [sweepStage, hen, ht, hg, sweepCandidates]
    | none =>
      cases hl : reg.list_namespaces with
      | ok nss =>
        simp [sweepStage, hen, ht, hl, sweepCandidates, sweepAll_calls_mem]
      | error e =>
        simp [sweepStage, hen, ht, hl, sweepCandidates]

/-- C6: on the success path a `delete_namespace` call is issued for an id
exactly when the sweep is enabled and a candidate namespace with that id
had its image listing return exactly zero images; in particular a
namespace whose listing returns one or more images is never deleted. -/
theorem namespace_delete_iff (cfg : Config) (now : Int) (reg : Registry)
    (images : List Image)
    (h : reg.list_images (effTarget cfg) = .ok images) (nid : String) :
    nid ∈ (handle cfg now reg).2.nsDeleteCalls ↔
      (cfg.delete_unused_namespaces = true ∧
       ∃ ns ∈ sweepCandidates cfg reg, nid = ns.id ∧
         reg.list_images (some ns.id) = .ok []) := by
  have htr : (handle cfg now reg).2.nsDeleteCalls =
      (sweepStage cfg reg).calls := by
    simp [handle, h]
  rw [htr]
  exact sweepStage_calls cfg reg nid

/-- Sweep fixture: only the age predicate disabled, untargeted sweep
enabled; namespace `ns1` is empty, `ns2` holds one image. -/
def cfgSweep : Config := ⟨false, none, true, none⟩

/-- Registry for the sweep fixture. -/
def regSweep : Registry where
  list_images := fun filt =>
    match filt with
    | none => .ok []
    | some nsid => if nsid = "ns1" then .ok [] else .ok [⟨"iX"⟩]
  list_tags := fun _ => .ok []
  delete_tag := fun _ => .ok ()
  get_namespace := fun nsid => .ok ⟨nsid, "target"⟩
  list_namespaces := .ok [⟨"ns1", "alpha"⟩, ⟨"ns2", "beta"⟩]
  delete_namespace := fun _ => .ok ()

theorem namespace_delete_iff_witness :
    "ns1" ∈ (handle cfgSweep 0 regSweep).2.nsDeleteCalls ∧
    "ns2" ∉ (handle cfgSweep 0 regSweep).2.nsDeleteCalls := by
  constructor
  · exact (namespace_delete_iff cfgSweep 0 regSweep [] rfl "ns1").mpr
      ⟨rfl, ⟨"ns1", "alpha"⟩, by decide, rfl, by decide⟩
  · decide

/-- C7: a failing per-image tag listing skips exactly that image — the
candidate list is as if the image were absent — and the run still takes
the success path (statusCode 200); only a failing top-level image listing
produces the 500-shaped result. -/
theorem tag_listing_failure_skips (cfg : Config) (now : Int)
    (reg : Registry) :
    (∀ images, reg.list_images (effTarget cfg) = .ok images →
      (handle cfg now reg).1.statusCode = 200) ∧
    (∀ e, reg.list_images (effTarget cfg) = .error e →
      (handle cfg now reg).1.statusCode = 500) ∧
    (∀ (pre post : List Image) (image : Image) (e : String),
      reg.list_tags image.id = .error e →
      tags_to_delete cfg now reg (pre ++ image :: post) =
        tags_to_delete cfg now reg (pre ++ post)) := by
  refine ⟨?_, ?_, ?_⟩
  · intro images h
    simp [handle, h]
  · intro e h
    simp [handle, h]
  · intro pre post image e he
    induction pre with
    | nil => simp [tags_to_delete, he]
    | cons i pre ih => simp [tags_to_delete, ih]

/-- Registry with one image whose tag listing raises and one whose tags
are served; the served image carries the old tag. -/
def regSkip : Registry where
  list_images := fun _ => .ok [⟨"i-bad"⟩, ⟨"i-good"⟩]
  list_tags := fun iid => if iid = "i-bad" then .error "boom" else .ok [tagOld]
  delete_tag := fun _ => .ok ()
  get_namespace := fun _ => .error "not found"
  list_namespaces := .error "not found"
  delete_namespace := fun _ => .error "not found"

theorem tag_listing_failure_skips_witness :
    (handle cfgBasic nowFx regSkip).1.statusCode = 200 ∧
    tags_to_delete cfgBasic nowFx regSkip [⟨"i-bad"⟩, ⟨"i-good"⟩] =
      tags_to_delete cfgBasic nowFx regSkip [⟨"i-good"⟩] := by
  constructor
  · exact (tag_listing_failure_skips cfgBasic nowFx regSkip).1
      [⟨"i-bad"⟩, ⟨"i-good"⟩] rfl
  · exact (tag_listing_failure_skips cfgBasic nowFx regSkip).2.2
      [] [⟨"i-good"⟩] ⟨"i-bad"⟩ "boom" rfl

/-- Whatever the outcome, the record built for a candidate carries the
candidate's tag id. -/
theorem processCandidate_tag_id (reg : Registry) (tag : Tag)
    (reasons : List String) :
    (processCandidate reg tag reasons).1.tag_id = tag.id := by
  cases h : reg.delete_tag tag.id with
  | ok u =>
    cases hc : tag.created_at <;> cases hu : tag.updated_at <;>
      simp [processCandidate, h, hc, hu]
  | error e => simp [processCandidate, h]

/-- Records appended by the per-namespace sweep body are namespace
records. -/
theorem sweepOne_records_ns (reg : Registry) (ns : Namespace) :
    ∀ x ∈ (sweepOne reg ns).records, ∃ nr, x = Record.ns nr := by
  intro x hx
  cases h : reg.list_images (some ns.id) with
  | error e => simp [sweepOne, h] at hx
  | ok imgs =>
    cases imgs with
    | nil =>
      cases hd : reg.delete_namespace ns.id with
      | ok u =>
        simp [sweepOne, h, hd] at hx
        exact ⟨_, hx⟩
      | error e =>
        simp [sweepOne, h, hd] at hx
        exact ⟨_, hx⟩
    | cons i is => simp [sweepOne, h] at hx

/-- Records appended by the sweep loop are namespace records. -/
theorem sweepAll_records_ns (reg : Registry) :
    ∀ nss, ∀ x ∈ (sweepAll reg nss).records, ∃ nr, x = Record.ns nr := by
  intro nss
  induction nss with
  | nil => intro x hx; simp [sweepAll] at hx
  | cons ns nss ih =>
    intro x hx
    simp only [sweepAll, List.mem_append] at hx
    rcases hx with hx | hx
    · exact sweepOne_records_ns reg ns x hx
    · exact ih x hx

/-- Records appended by the whole sweep stage are namespace records. -/
theorem sweepStage_records_ns (cfg : Config) (reg : Registry) :
    ∀ x ∈ (sweepStage cfg reg).records, ∃ nr, x = Record.ns nr := by
  intro x hx
  cases hen : cfg.delete_unused_namespaces with
  | false => simp [sweepStage, hen] at hx
  | true =>
    cases ht : effTarget cfg with
    | some nsid =>
      cases hg : reg.get_namespace nsid with
      | ok ns =>
        simp only [sweepStage, hen, ht, hg, if_pos rfl] at hx
        exact sweepAll_records_ns reg [ns] x hx
      | error e => simp [sweepStage, hen, ht, hg] at hx
    | none =>
      cases hl : reg.list_namespaces with
      | ok nss =>
        simp only [sweepStage, hen, ht, hl, if_pos rfl] at hx
        exact sweepAll_records_ns reg nss x hx
      | error e => simp [sweepStage, hen, ht, hl] at hx

/-- C8: with distinct tag ids, a listed tag for which neither active
predicate fires is never a candidate, never has a `delete_tag` call
issued for its id, and never appears among the per-tag records of the
result message log. -/
theorem unmatched_tag_untouched (cfg : Config) (now : Int) (reg : Registry)
    (images : List Image) (t : Tag)
    (h : reg.list_images (effTarget cfg) = .ok images)
    (hids : ((allListedTags reg images).map Tag.id).Nodup)
    (ht : t ∈ allListedTags reg images)
    (hold : (cfg.delete_old_tags && is_tag_old now t) = false)
    (hname : (isTruthy cfg.tag_name_pattern &&
        should_delete_tag_by_name t cfg.tag_name_pattern) = false) :
    (∀ rs, (t, rs) ∉ tags_to_delete cfg now reg images) ∧
    t.id ∉ (handle cfg now reg).2.tagDeleteCalls ∧
    (∀ msgs s, (handle cfg now reg).1.body = .success msgs s →
      ∀ r : TagRecord, Record.tag r ∈ msgs → r.tag_id ≠ t.id) := by
  have hdr : deletion_reason cfg now t = [] := by
    simp [deletion_reason, hold, hname]
  have hnotin : ∀ p ∈ tags_to_delete cfg now reg images, p.1.id ≠ t.id := by
    intro p hp heq
    rw [tags_to_delete_eq_classify] at hp
    obtain ⟨hmem, -, hne⟩ :=
      (mem_classifyTags cfg now (allListedTags reg images) p).mp hp
    have hpt : p.1 = t := List.inj_on_of_nodup_map hids hmem ht heq
    rw [hpt] at hne
    exact hne hdr
  refine ⟨?_, ?_, ?_⟩
  · intro rs hmem
    exact hnotin (t, rs) hmem rfl
  · intro hmem
    have hcalls : (handle cfg now reg).2.tagDeleteCalls =
        (tags_to_delete cfg now reg images).map fun p => p.1.id := by
      simp [handle, h]
    rw [hcalls] at hmem
    obtain ⟨p, hp, hpid⟩ := List.mem_map.mp hmem
    exact hnotin p hp hpid
  · intro msgs s hb r hr hrid
    have hbody := hb
    simp only [handle, h] at hbody
    have hmsgs := (Body.success.injEq .. ▸ hbody).1
    rw [← hmsgs] at hr
    rcases List.mem_append.mp hr with hr | hr
    · rw [List.map_map] at hr
      obtain ⟨p, hp, he⟩ := List.mem_map.mp hr
      have he' : (processCandidate reg p.1 p.2).1 = r := by
        injection he
      have : r.tag_id = p.1.id := by
        rw [← he']; exact processCandidate_tag_id reg p.1 p.2
      exact hnotin p hp (this ▸ hrid)
    · obtain ⟨nr, hnr⟩ := sweepStage_records_ns cfg reg _ hr
      exact Record.noConfusion hnr

theorem unmatched_tag_untouched_witness :
    tagFresh.id ∉ (handle cfgBoth nowFx regFx).2.tagDeleteCalls :=
  (unmatched_tag_untouched cfgBoth nowFx regFx [⟨"i1"⟩] tagFresh rfl
    (by decide) (by decide) (by decide) (by decide)).2.1

/-- C9 counterexample: in a concrete run whose only candidate's delete is
denied, the appended per-tag record has no `image_name` key — the error
branch (handler.py:157-163) omits it — refuting the claim that every
per-tag record contains `image_name`. -/
theorem tag_record_missing_image_name :
    ∃ msgs s, (handle cfgBasic nowFx regDelFail).1.body = .success msgs s ∧
      ¬ (∀ r : TagRecord, Record.tag r ∈ msgs →
          r.image_name.isSome = true) := by
  refine ⟨_, _, rfl, fun hall => ?_⟩
  have := hall ⟨"t-old", "build-a", none, .error, ["old"], none, none,
    some "denied"⟩ (by decide)
  simp at this

/-- C9 amended: every per-tag record of the message log carries `tag_id`,
`tag_name`, `status` and `deletion_reasons`; records with status
`"deleted"` additionally carry `image_name`, `created_at` and
`updated_at` (and no `error`), while records with status `"error"` carry
`error` and omit `image_name`, `created_at` and `updated_at`. -/
theorem tag_record_fields (cfg : Config) (now : Int) (reg : Registry)
    (images : List Image) (msgs : List Record) (s : Summary)
    (h : reg.list_images (effTarget cfg) = .ok images)
    (hb : (handle cfg now reg).1.body = .success msgs s) :
    ∀ r : TagRecord, Record.tag r ∈ msgs →
      (r.status = .deleted →
        r.image_name.isSome = true ∧ r.created_at.isSome = true ∧
        r.updated_at.isSome = true ∧ r.error = none) ∧
      (r.status = .error →
        r.error.isSome = true ∧ r.image_name = none ∧
        r.created_at = none ∧ r.updated_at = none) := by
  intro r hr
  have hbody := hb
  simp only [handle, h] at hbody
  have hmsgs := (Body.success.injEq .. ▸ hbody).1
  rw [← hmsgs] at hr
  rcases List.mem_append.mp hr with hr | hr
  · rw [List.map_map] at hr
    obtain ⟨p, hp, he⟩ := List.mem_map.mp hr
    have he' : (processCandidate reg p.1 p.2).1 = r := by
      injection he
    rw [← he']
    cases hd : reg.delete_tag p.1.id with
    | ok u =>
      cases hc : p.1.created_at <;> cases hu : p.1.updated_at <;>
        simp [processCandidate, hd, hc, hu]
    | error e => simp [processCandidate, hd]
  · obtain ⟨nr, hnr⟩ := sweepStage_records_ns cfg reg _ hr
    exact Record.noConfusion hnr

theorem tag_record_fields_witness :
    (some "denied" : Option String).isSome = true ∧
    (none : Option String) = none ∧
    (none : Option Int) = none ∧ (none : Option Int) = none := by
  have hrec : Record.tag ⟨"t-old", "build-a", none, .error, ["old"], none,
      none, some "denied"⟩ ∈
      ((((tags_to_delete cfgBasic nowFx regDelFail [⟨"i1"⟩]).map fun p =>
        processCandidate regDelFail p.1 p.2).map fun p =>
        Record.tag p.1) ++ (sweepStage cfgBasic regDelFail).records) := by
    decide
  exact (tag_record_fields cfgBasic nowFx regDelFail [⟨"i1"⟩] _ _ rfl rfl
    ⟨"t-old", "build-a", none, .error, ["old"], none, none, some "denied"⟩
    hrec).2 rfl

/-- C10: with the sweep enabled, a raising targeted `get_namespace` leaves
the candidate namespace set empty and `namespace_errors` at 0, while a
raising untargeted `list_namespaces_all` sets `namespace_errors` to 1; in
both cases the run still returns statusCode 200. -/
theorem sweep_enumeration_failures (cfg : Config) (now : Int)
    (reg : Registry) (images : List Image)
    (h : reg.list_images (effTarget cfg) = .ok images)
    (hen : cfg.delete_unused_namespaces = true) :
    (∀ nsid e, effTarget cfg = some nsid →
      reg.get_namespace nsid = .error e →
      (handle cfg now reg).1.statusCode = 200 ∧
      sweepCandidates cfg reg = [] ∧
      ∃ msgs s, (handle cfg now reg).1.body = .success msgs s ∧
        s.namespace_errors = 0 ∧ s.namespaces_deleted = 0 ∧
        (∀ nr : NamespaceRecord, Record.ns nr ∉ msgs)) ∧
    (∀ e, effTarget cfg = none → reg.list_namespaces = .error e →
      (handle cfg now reg).1.statusCode = 200 ∧
      ∃ msgs s, (handle cfg now reg).1.body = .success msgs s ∧
        s.namespace_errors = 1) := by
  constructor
  · intro nsid e ht hg
    have hsw : sweepStage cfg reg = ⟨[], 0, 0, []⟩ := by
      simp [sweepStage, hen, ht, hg]
    refine ⟨by simp [handle, h], by simp [sweepCandidates, ht, hg], ?_⟩
    simp only [handle, h]
    refine ⟨_, _, rfl, by simp [hsw, hen], by simp [hsw, hen], ?_⟩
    intro nr hnr
    rcases List.mem_append.mp hnr with hnr | hnr
    · rw [List.map_map] at hnr
      obtain ⟨p, hp, he⟩ := List.mem_map.mp hnr
      exact Record.noConfusion he
    · rw [hsw] at hnr
      simp at hnr
  · intro e ht hl
    have hsw : sweepStage cfg reg = ⟨[], 0, 1, []⟩ := by
      simp [sweepStage, hen, ht, hl]
    refine ⟨by simp [handle, h], ?_⟩
    simp only [handle, h]
    exact ⟨_, _, rfl, by simp [hsw, hen]⟩

/-- Sweep fixture: targeted namespace whose fetch raises. -/
def cfgTarget : Config := ⟨false, none, true, some "nsX"⟩

/-- Registry where all namespace enumeration raises but image listing
succeeds. -/
def regNsFail : Registry where
  list_images := fun _ => .ok []
  list_tags := fun _ => .ok []
  delete_tag := fun _ => .ok ()
  get_namespace := fun _ => .error "boom"
  list_namespaces := .error "boom"
  delete_namespace := fun _ => .ok ()

theorem sweep_enumeration_failures_witness :
    ((handle cfgTarget 0 regNsFail).1.statusCode = 200 ∧
     sweepCandidates cfgTarget regNsFail = []) ∧
    ((handle cfgSweep 0 regNsFail).1.statusCode = 200 ∧
     ∃ msgs s, (handle cfgSweep 0 regNsFail).1.body = .success msgs s ∧
       s.namespace_errors = 1) := by
  constructor
  · have h := (sweep_enumeration_failures cfgTarget 0 regNsFail [] rfl
      rfl).1 "nsX" "boom" rfl rfl
    exact ⟨h.1, h.2.1⟩
  · exact (sweep_enumeration_failures cfgSweep 0 regNsFail [] rfl rfl).2
      "boom" rfl rfl

end RegistryPurge
